import Mathlib

/-!
# Verification of the download/deduplication and categorization-memory subsystem

Shallow embedding of the core subsystem of the repository:

* `src/tools/gmail_downloader.py` — history store, content hasher, attachment
  retriever (bare-content-hash fingerprints, 10-message examination cap),
  and its `main` entry point with the save-history-in-`finally` pattern;
* `src/Tools/Gmail_Downloader.py` and `src/AI_Agent/tools/gmail_downloader.py`
  — the earlier revisions of the retriever whose fingerprint keys are scoped
  per message (`"{message_id}:{hash}"`) and which save attachments under the
  bare original filename;
* `src/tools/file_analyzer.py` — `update_memory` (first-write-wins insert into
  categorization memory);
* `src/tools/process_downloaded_data.py` — `process_file` and
  `process_memory_entries` (directive processor).

Filesystem and subprocess effects are made explicit: the download and archive
directories are lists of file names, file writes are a trace of
(name, payload) pairs, the external print tool and the archive rename are
behaviour functions supplied as parameters, and Python exceptions are explicit
outcome values.  SHA-256 (`hash_bytes`) is modelled as an arbitrary digest
function parameter `hash`: every property proved holds for every such
function, in particular for SHA-256; concrete runs instantiate it with the
executable stand-in `digest`.
-/

namespace AIAgent

/-! ## Python string primitives

Python's `str.strip()`, `str.lower()` and the suffix matching performed by
`downloads_dir.glob(f"*\x7bsuffix\x7d")` are modelled over the character
list of the string, so that all of them are kernel-computable.  (`glob` with
pattern `*suffix` under `pathlib` matches exactly the directory entries whose
name ends with `suffix`; with the empty suffix the pattern is `*`, matching
every entry.) -/

/-- Python `str.strip()`: remove leading and trailing whitespace. -/
def py_strip (s : String) : String :=
  ⟨((s.data.dropWhile Char.isWhitespace).reverse.dropWhile Char.isWhitespace).reverse⟩

/-- Python `str.lower()` (the inputs of interest are ASCII). -/
def py_lower (s : String) : String :=
  ⟨s.data.map Char.toLower⟩

/-- Semantics of `pathlib.Path.glob` with pattern `*suffix` at one name:
true iff `name` ends with `suffix`. -/
def glob_match (suffix name : String) : Bool :=
  List.isSuffixOf suffix.data name.data

/-! ## Categorization memory (`src/tools/file_analyzer.py`)

A memory entry as written by `process_file` / `process_message` in
`file_analyzer.py`: fields `source`, `filetype` (file entries only),
`subject` (message entries only), `summary`, `contains_structured_data`,
`category`, `notes`.  Optional fields model keys that may be absent from the
underlying JSON object (`entry.get(k, default)` in the consumers). -/
structure MemoryEntry where
  source : String
  filetype : Option String
  subject : Option String
  summary : String
  contains_structured_data : Bool
  category : String
  notes : Option String
deriving DecidableEq, Repr

/-- The categorization memory: a JSON object keyed by derived identity,
modelled as an insertion-ordered association list. -/
abbrev Memory := List (String × MemoryEntry)

/-- Lookup of `memory[key]` / `key in memory` on the association list. -/
def memory_lookup (memory : Memory) (key : String) : Option MemoryEntry :=
  (memory.find? (fun kv => kv.1 == key)).map Prod.snd

/-- Function `update_memory` from `src/tools/file_analyzer.py` (lines 248–252):
`if key not in memory: memory[key] = entry` — insert only when the key is
absent, otherwise leave the memory untouched. -/
def update_memory (memory : Memory) (key : String) (entry : MemoryEntry) : Memory :=
  if memory.any (fun kv => kv.1 == key) then memory
  else memory ++ [(key, entry)]

/-! ## Directive processor (`src/tools/process_downloaded_data.py`) -/

/-- Outcome of `subprocess.run(["python", print_tool, file], check=True)`:
success, `CalledProcessError` (nonzero exit with `check=True`), or any other
exception raised while launching the subprocess. -/
inductive PrintResult where
  | success
  | calledProcessError
  | otherFailure
deriving DecidableEq, Repr

/-- The per-run statistics dictionary built by `process_memory_entries`. -/
structure Stats where
  total_entries : Nat
  to_print_entries : Nat
  skipped_entries : Nat
  files_found : Nat
  files_printed : Nat
  archived : Nat
  errors : Nat
deriving DecidableEq, Repr

/-- State threaded through the directive processor: the names of the files
currently in the download directory, the names in the archive directory, the
trace of print-tool invocations (file names passed to the subprocess), and
the statistics dictionary.  Names are relative to the respective directory. -/
structure ProcState where
  downloads : List String
  archive : List String
  printCalls : List String
  stats : Stats
deriving DecidableEq, Repr

/-- Function `process_file` from `src/tools/process_downloaded_data.py` (lines 76–95).
`printRes f` gives the outcome of the print subprocess on file `f`;
`renameFails f` tells whether `file_path.rename(archive_dir / name)` raises.
The whole body is one `try` with `except CalledProcessError` and a generic
`except Exception`, both of which only increment `errors`; `files_printed`
is incremented after the subprocess succeeds and before the rename. -/
def process_file (printRes : String → PrintResult) (renameFails : String → Bool)
    (file : String) (st : ProcState) : ProcState :=
  let st1 : ProcState := { st with printCalls := st.printCalls ++ [file] }
  match printRes file with
  | .calledProcessError =>
      { st1 with stats := { st1.stats with errors := st1.stats.errors + 1 } }
  | .otherFailure =>
      { st1 with stats := { st1.stats with errors := st1.stats.errors + 1 } }
  | .success =>
      let st2 : ProcState :=
        { st1 with stats := { st1.stats with files_printed := st1.stats.files_printed + 1 } }
      if renameFails file then
        { st2 with stats := { st2.stats with errors := st2.stats.errors + 1 } }
      else
        { st2 with
          downloads := st2.downloads.erase file,
          archive := st2.archive ++ [file],
          stats := { st2.stats with archived := st2.stats.archived + 1 } }

/-- One iteration of the `for key, entry in memory.items()` loop of
`process_memory_entries`: normalize the directive, count skips, glob the
download directory (`downloads_dir.glob(f"*\x7bsuffix\x7d")`, i.e. names
ending with the recorded filetype suffix), and process every matched file. -/
def process_entry (printRes : String → PrintResult) (renameFails : String → Bool)
    (st : ProcState) (kv : String × MemoryEntry) : ProcState :=
  let directive := py_lower (py_strip (kv.2.notes.getD ""))
  if directive ≠ "print" then
    { st with stats := { st.stats with skipped_entries := st.stats.skipped_entries + 1 } }
  else
    let st1 : ProcState :=
      { st with stats := { st.stats with to_print_entries := st.stats.to_print_entries + 1 } }
    let suffix := kv.2.filetype.getD ""
    let matched := st1.downloads.filter (fun f => glob_match suffix f)
    let st2 : ProcState :=
      { st1 with stats := { st1.stats with files_found := st1.stats.files_found + matched.length } }
    matched.foldl (fun s f => process_file printRes renameFails f s) st2

/-- Function `process_memory_entries` from `src/tools/process_downloaded_data.py`
(lines 98–131): initialize the statistics with `total_entries = len(memory)`
and fold `process_entry` over the memory entries in order. -/
def process_memory_entries (printRes : String → PrintResult) (renameFails : String → Bool)
    (memory : Memory) (downloads archive : List String) : ProcState :=
  let init : ProcState :=
    { downloads := downloads, archive := archive, printCalls := [],
      stats := { total_entries := memory.length, to_print_entries := 0,
                 skipped_entries := 0, files_found := 0, files_printed := 0,
                 archived := 0, errors := 0 } }
  memory.foldl (process_entry printRes renameFails) init

/-! ## History store and attachment retriever (`src/tools/gmail_downloader.py`) -/

/-- The in-memory history record built by `load_history`: two Python sets. -/
structure History where
  message_ids : Finset String
  attachments : Finset String
deriving DecidableEq

/-- Exception raised by `json.load` on malformed input. -/
inductive JsonError where
  | decodeError
deriving DecidableEq, Repr

/-- State of the persisted history document `downloaded_attachments.json`:
absent, present but not valid JSON, or a JSON object whose `message_ids` /
`attachments` fields (defaulted to `[]` by `data.get(k, [])`) are the given
string arrays. -/
inductive HistoryFileState where
  | absent
  | malformed (content : String)
  | valid (message_ids attachments : List String)
deriving DecidableEq

/-- Function `load_history` (lines 138–150): start from empty sets; if the file
exists, `json.load` it — a `JSONDecodeError` propagates to the caller, there
is no handler — and convert the two defaulted list fields into sets. -/
def load_history : HistoryFileState → Except JsonError History
  | .absent => .ok ⟨∅, ∅⟩
  | .malformed _ => .error .decodeError
  | .valid ms as => .ok ⟨ms.toFinset, as.toFinset⟩

/-- Function `save_history` (lines 153–167): serialize the two sets to lists and
overwrite the backing document (`HISTORY_FILE.open("w")`), whatever its
previous contents were.  Python's `list(set)` order is unspecified; the
serialization is modelled with a canonical (sorted) enumeration. -/
def save_history (history : History) : HistoryFileState :=
  .valid (history.message_ids.sort (· ≤ ·)) (history.attachments.sort (· ≤ ·))

deriving instance DecidableEq for Except

/-- A MIME part of a full message.  `filename` is `part.get("filename")`
with `""` for the falsy missing case; `attachment` is `none` when the body
carries no `attachmentId`, and otherwise the outcome of
`attachments().get(...)` followed by base64 decoding: either a provider
error (the call raises) or the decoded payload bytes. -/
structure Part where
  filename : String
  attachment : Option (Except Unit (List Nat))
deriving DecidableEq

/-- A full message as returned by `messages().get(..., format="full")`:
its headers and its payload parts. -/
structure FullMessage where
  headers : List (String × String)
  parts : List Part
deriving DecidableEq

/-- One message-list item together with the behaviour of the provider when
the full message is fetched: `fetch` is `.error ()` when
`messages().get` raises for this id. -/
structure GmailMessage where
  id : String
  fetch : Except Unit FullMessage
deriving DecidableEq

/-- Header extraction
`next((h["value"] for h in hdrs if h["name"] == name), default)`. -/
def header_value (hdrs : List (String × String)) (name default : String) : String :=
  match hdrs.find? (fun h => h.1 == name) with
  | some h => h.2
  | none => default

/-- Metadata record appended to `new_files` for each saved attachment. -/
structure DownloadedAttachment where
  filename : String
  subject : String
  sender : String
  original_name : String
deriving DecidableEq, Repr

/-- State threaded through `download_attachments`: the (mutated-in-place)
history record, the trace of `path.write_bytes` calls into the download
directory as (file name, payload) pairs, the accumulating `new_files`
result list, and the `msgs_examined` counter. -/
structure DState where
  history : History
  written : List (String × List Nat)
  new_files : List DownloadedAttachment
  msgs_examined : Nat
deriving DecidableEq

/-- How control left the message-processing loops: the current message batch
was exhausted normally, `return new_files` ran because 10 messages had been
examined, or an exception propagated out of `download_attachments`. -/
inductive Flow where
  | finished
  | returned
  | raised
deriving DecidableEq, Repr

/-- The `for part in message["payload"]["parts"]` loop of
`download_attachments` (lines 229–257): skip parts without a filename or
attachment id; fetch and decode the payload (a provider error propagates,
shown by the `true` flag); hash it; skip already-seen fingerprints;
otherwise write the bytes under `FILENAME_FORMAT = "\x7bhash\x7d_\x7boriginal_name\x7d"`,
record the fingerprint and append the `new_files` entry. -/
def process_parts (hash : List Nat → String) (subject sender : String) :
    List Part → DState → DState × Bool
  | [], st => (st, false)
  | p :: rest, st =>
    if p.filename = "" then process_parts hash subject sender rest st
    else
      match p.attachment with
      | none => process_parts hash subject sender rest st
      | some (.error _) => (st, true)
      | some (.ok data) =>
        let file_hash := hash data
        if file_hash ∈ st.history.attachments then
          process_parts hash subject sender rest st
        else
          let save_name := file_hash ++ "_" ++ p.filename
          process_parts hash subject sender rest
            { st with
              written := st.written ++ [(save_name, data)],
              history := { st.history with
                attachments := insert file_hash st.history.attachments },
              new_files := st.new_files ++
                [⟨save_name, subject, sender, p.filename⟩] }

/-- The `for msg in messages` loop of `download_attachments` (lines
206–260): return once 10 messages have been examined (the check precedes the
history lookup, so skipped messages count); skip messages already in
`history["message_ids"]`; fetch the full message (a provider error
propagates); process its parts; unconditionally mark the id seen
afterwards. -/
def process_messages (hash : List Nat → String) :
    List GmailMessage → DState → DState × Flow
  | [], st => (st, .finished)
  | m :: rest, st =>
    if st.msgs_examined ≥ 10 then (st, .returned)
    else
      let st1 : DState := { st with msgs_examined := st.msgs_examined + 1 }
      if m.id ∈ st1.history.message_ids then
        process_messages hash rest st1
      else
        match m.fetch with
        | .error _ => (st1, .raised)
        | .ok full =>
          let pr := process_parts hash
            (header_value full.headers "Subject" "(no subject)")
            (header_value full.headers "From" "(no sender)")
            full.parts st1
          if pr.2 then (pr.1, .raised)
          else
            process_messages hash rest
              { pr.1 with history := { pr.1.history with
                  message_ids := insert m.id pr.1.history.message_ids } }

/-- The `while True` pagination loop of `download_attachments` (lines
196–265): each `messages().list` page is a batch; move to the next page when
the batch finishes without returning or raising, stop on the last page. -/
def process_pages (hash : List Nat → String) :
    List (List GmailMessage) → DState → DState × Flow
  | [], st => (st, .finished)
  | page :: rest, st =>
    match process_messages hash page st with
    | (st1, .finished) => process_pages hash rest st1
    | r => r

/-- Fresh per-run state over a loaded history record. -/
def init_state (history : History) : DState :=
  { history := history, written := [], new_files := [], msgs_examined := 0 }

/-- Function `download_attachments(service, history)` from
`src/tools/gmail_downloader.py` (lines 185–268).  The mailbox is the list of
pages the provider serves for the fixed query; `hash` is the digest function
(`hash_bytes`, SHA-256).  On a `.finished` or `.returned` flow the Python
function returns `new_files`; on `.raised` the exception propagates with the
in-place history mutations retained. -/
def download_attachments (hash : List Nat → String)
    (pages : List (List GmailMessage)) (history : History) : DState × Flow :=
  process_pages hash pages (init_state history)

/-- Outcome of `main()` (lines 322–359). -/
inductive MainOutcome where
  | authFailed
  | loadRaised
  | downloadFailed
  | success
deriving DecidableEq, Repr

/-- Result of a `main()` run: how it ended, and the history record passed to
`save_history` in the `finally` block, if that call was reached. -/
structure MainResult where
  outcome : MainOutcome
  saved : Option History
deriving DecidableEq

/-- Function `main()` from `src/tools/gmail_downloader.py` (lines 322–359).
`credentialsOk` is whether `get_credentials_file` succeeds (the
`FileNotFoundError` it raises is the one caught around `authenticate()`);
`hfile` is the state of the history document read by `load_history`, which
runs outside any handler, so its `JSONDecodeError` aborts `main` before the
`try/finally`; the download step runs inside `try ... except Exception ...
finally: save_history(history)`, so the save happens on the success path and
on the exception path alike.  The results-file write (`write_result`) only
touches the results document and is modelled as non-failing. -/
def gmail_main (hash : List Nat → String) (credentialsOk : Bool)
    (hfile : HistoryFileState) (pages : List (List GmailMessage)) : MainResult :=
  if ¬ credentialsOk then ⟨.authFailed, none⟩
  else
    match load_history hfile with
    | .error _ => ⟨.loadRaised, none⟩
    | .ok h0 =>
      let r := download_attachments hash pages h0
      match r.2 with
      | .raised => ⟨.downloadFailed, some r.1.history⟩
      | _ => ⟨.success, some r.1.history⟩

/-! ## The per-message-scoped retriever revisions
(`src/Tools/Gmail_Downloader.py` lines 56–95 and
`src/AI_Agent/tools/gmail_downloader.py` lines 69–108; the two revisions'
`download_attachments` bodies are identical).  Differences from the primary
revision: a single unpaginated message list, no examination cap, the
fingerprint key is `f"\x7bmsg_id\x7d:\x7bfile_hash\x7d"`, the file is written
under the bare original filename, and `new_files` collects filenames. -/

/-- State for the scoped revisions: history, write trace, `new_files`. -/
structure ScopedState where
  history : History
  written : List (String × List Nat)
  new_files : List String
deriving DecidableEq

/-- The parts loop of the scoped revisions: fingerprint key scoped by
message id, file saved under its original name. -/
def scoped_process_parts (hash : List Nat → String) (msgId : String) :
    List Part → ScopedState → ScopedState × Bool
  | [], st => (st, false)
  | p :: rest, st =>
    if p.filename = "" then scoped_process_parts hash msgId rest st
    else
      match p.attachment with
      | none => scoped_process_parts hash msgId rest st
      | some (.error _) => (st, true)
      | some (.ok data) =>
        let file_hash := hash data
        let hash_key := msgId ++ ":" ++ file_hash
        if hash_key ∈ st.history.attachments then
          scoped_process_parts hash msgId rest st
        else
          scoped_process_parts hash msgId rest
            { st with
              written := st.written ++ [(p.filename, data)],
              new_files := st.new_files ++ [p.filename],
              history := { st.history with
                attachments := insert hash_key st.history.attachments } }

/-- The message loop of the scoped revisions: no examination cap, skip seen
ids, fetch, process parts, then mark the id seen. -/
def scoped_process_messages (hash : List Nat → String) :
    List GmailMessage → ScopedState → ScopedState × Bool
  | [], st => (st, false)
  | m :: rest, st =>
    if m.id ∈ st.history.message_ids then
      scoped_process_messages hash rest st
    else
      match m.fetch with
      | .error _ => (st, true)
      | .ok full =>
        let pr := scoped_process_parts hash m.id full.parts st
        if pr.2 then (pr.1, true)
        else
          scoped_process_messages hash rest
            { pr.1 with history := { pr.1.history with
                message_ids := insert m.id pr.1.history.message_ids } }

/-- Function `download_attachments` of the scoped revisions, over the single message
list served by the provider; the flag reports a propagated exception. -/
def scoped_download_attachments (hash : List Nat → String)
    (messages : List GmailMessage) (history : History) : ScopedState × Bool :=
  scoped_process_messages hash messages
    { history := history, written := [], new_files := [] }

/-- Executable stand-in digest used to instantiate the abstract `hash`
parameter on concrete runs (`hash_bytes` is SHA-256 in the source; the
claims under study depend only on the digest being a function of the
payload bytes). -/
def digest (data : List Nat) : String :=
  "h" ++ toString (data.foldl (fun a b => a * 257 + b + 1) 1)

/-- Digests of the payloads written so far in a retriever run. -/
def written_hashes (hash : List Nat → String) (st : DState) : List String :=
  st.written.map (fun f => hash f.2)

/-- Deduplication invariant of the primary retriever relative to the
initial history `h0`: the digests of the written payloads are pairwise
distinct, none of them was fingerprinted before the run, and the
fingerprint set is exactly the initial one extended by the digests of the
written payloads. -/
def DedupInv (hash : List Nat → String) (h0 : History) (st : DState) : Prop :=
  (written_hashes hash st).Nodup ∧
  (∀ x ∈ written_hashes hash st, x ∉ h0.attachments) ∧
  st.history.attachments = h0.attachments ∪ (written_hashes hash st).toFinset

/-! ## Concrete sample data for counterexamples and witnesses -/

/-- A file-type categorization-memory entry as created by the analyzer,
annotated with the `print` directive. -/
def sample_print_entry : MemoryEntry :=
  { source := "alice@example.com", filetype := some ".pdf", subject := none,
    summary := "monthly statement", contains_structured_data := false,
    category := "(uncategorized)", notes := some "print" }

/-- The same grouping key observed again with different fields. -/
def sample_new_entry : MemoryEntry :=
  { source := "alice@example.com", filetype := some ".pdf", subject := none,
    summary := "a different summary", contains_structured_data := true,
    category := "(uncategorized)", notes := some "" }

/-- An entry whose `filetype` field is absent, with the `print` directive. -/
def sample_untyped_entry : MemoryEntry :=
  { source := "bob@example.com", filetype := none, subject := none,
    summary := "who knows", contains_structured_data := false,
    category := "(uncategorized)", notes := some "print" }

/-- Full message carrying the attachment `a.pdf` with payload `[1, 2, 3]`. -/
def fullA : FullMessage :=
  { headers := [("Subject", "invoice"), ("From", "alice")],
    parts := [{ filename := "a.pdf", attachment := some (.ok [1, 2, 3]) }] }

/-- Full message carrying `b.pdf` with the same payload `[1, 2, 3]`. -/
def fullB : FullMessage :=
  { headers := [("Subject", "invoice copy"), ("From", "bob")],
    parts := [{ filename := "b.pdf", attachment := some (.ok [1, 2, 3]) }] }

/-- Full message carrying the fresh attachment `c.pdf`. -/
def fullC : FullMessage :=
  { headers := [("Subject", "report"), ("From", "carol")],
    parts := [{ filename := "c.pdf", attachment := some (.ok [7, 8]) }] }

/-- First message with the shared payload. -/
def msgA : GmailMessage := { id := "m1", fetch := .ok fullA }

/-- Second message, different id and name, identical payload bytes. -/
def msgB : GmailMessage := { id := "m2", fetch := .ok fullB }

/-- A message whose full-message fetch raises a provider error. -/
def msgFail : GmailMessage := { id := "m2", fetch := .error () }

/-- A message with a fresh attachment, queued after the failing one. -/
def msgC : GmailMessage := { id := "m3", fetch := .ok fullC }

/-! ## Helper lemmas -/

/-- A glob pattern `*` with an empty suffix matches every name. -/
theorem glob_match_empty (s : String) : glob_match "" s = true := by
  simp [glob_match, List.isSuffixOf]

/-- If filtering a list yields exactly one copy of `a`, then `a` occurs
exactly once in the list (every occurrence of `a` survives the filter). -/
theorem count_eq_one_of_filter_singleton {l : List String} {p : String → Bool}
    {a : String} (h : l.filter p = [a]) : l.count a = 1 := by
  have ha : a ∈ l.filter p := by rw [h]; exact List.mem_singleton_self a
  have hp : p a = true := (List.mem_filter.mp ha).2
  have hc : (l.filter p).count a = l.count a := List.count_filter hp
  rw [h] at hc
  simpa using hc.symm

/-- After erasing the unique occurrence of `a`, it is gone. -/
theorem not_mem_erase_of_filter_singleton {l : List String} {p : String → Bool}
    {a : String} (h : l.filter p = [a]) : a ∉ l.erase a := by
  have h1 := count_eq_one_of_filter_singleton h
  have h0 : (l.erase a).count a = 0 := by rw [List.count_erase_self, h1]
  exact List.count_eq_zero.mp h0

/-- Behaviour of `process_file` on a successful print and rename. -/
theorem process_file_success (printRes : String → PrintResult)
    (renameFails : String → Bool) (file : String) (st : ProcState)
    (hp : printRes file = .success) (hr : renameFails file = false) :
    process_file printRes renameFails file st =
      { downloads := st.downloads.erase file,
        archive := st.archive ++ [file],
        printCalls := st.printCalls ++ [file],
        stats := { st.stats with
          files_printed := st.stats.files_printed + 1,
          archived := st.stats.archived + 1 } } := by
  simp [process_file, hp, hr]

/-- Behaviour of `process_file` when the print subprocess exits nonzero. -/
theorem process_file_print_failure (printRes : String → PrintResult)
    (renameFails : String → Bool) (file : String) (st : ProcState)
    (hp : printRes file = .calledProcessError) :
    process_file printRes renameFails file st =
      { st with printCalls := st.printCalls ++ [file],
                stats := { st.stats with errors := st.stats.errors + 1 } } := by
  simp [process_file, hp]

/-- Behaviour of `process_file` when the print succeeds but the rename raises:
`files_printed` was already incremented, the generic handler counts an
error, and the file stays in the download directory. -/
theorem process_file_rename_failure (printRes : String → PrintResult)
    (renameFails : String → Bool) (file : String) (st : ProcState)
    (hp : printRes file = .success) (hr : renameFails file = true) :
    process_file printRes renameFails file st =
      { st with printCalls := st.printCalls ++ [file],
                stats := { st.stats with
                  files_printed := st.stats.files_printed + 1,
                  errors := st.stats.errors + 1 } } := by
  simp [process_file, hp, hr]

/-- Folding `process_file` over the exact current directory contents with an
always-succeeding print tool and rename empties the download directory and
appends every file, in order, to the archive and to the call trace. -/
theorem foldl_process_file_success (printRes : String → PrintResult)
    (renameFails : String → Bool)
    (hok : ∀ f, printRes f = .success) (hrn : ∀ f, renameFails f = false) :
    ∀ (l : List String) (st : ProcState), st.downloads = l →
      (l.foldl (fun s f => process_file printRes renameFails f s) st).downloads = [] ∧
      (l.foldl (fun s f => process_file printRes renameFails f s) st).archive
        = st.archive ++ l ∧
      (l.foldl (fun s f => process_file printRes renameFails f s) st).printCalls
        = st.printCalls ++ l ∧
      (l.foldl (fun s f => process_file printRes renameFails f s) st).stats.files_printed
        = st.stats.files_printed + l.length ∧
      (l.foldl (fun s f => process_file printRes renameFails f s) st).stats.archived
        = st.stats.archived + l.length ∧
      (l.foldl (fun s f => process_file printRes renameFails f s) st).stats.errors
        = st.stats.errors ∧
      (l.foldl (fun s f => process_file printRes renameFails f s) st).stats.files_found
        = st.stats.files_found := by
  intro l
  induction l with
  | nil => intro st h; simp [h]
  | cons a t ih =>
    intro st h
    rw [List.foldl_cons, process_file_success printRes renameFails a st (hok a) (hrn a)]
    have hd : st.downloads.erase a = t := by rw [h]; exact List.erase_cons_head a t
    have := ih { downloads := st.downloads.erase a,
                 archive := st.archive ++ [a],
                 printCalls := st.printCalls ++ [a],
                 stats := { st.stats with
                   files_printed := st.stats.files_printed + 1,
                   archived := st.stats.archived + 1 } } hd
    simpa [List.append_assoc, Nat.add_assoc, Nat.add_comm 1 t.length] using this

/-- Evaluation of `process_entry` on an entry whose normalized directive is
`print`: count it, glob the current download directory with the entry's
filetype suffix, and fold `process_file` over the matches. -/
theorem process_entry_print (printRes : String → PrintResult)
    (renameFails : String → Bool) (st : ProcState) (kv : String × MemoryEntry)
    (hd : py_lower (py_strip (kv.2.notes.getD "")) = "print") :
    process_entry printRes renameFails st kv =
      (st.downloads.filter (fun f => glob_match (kv.2.filetype.getD "") f)).foldl
        (fun s f => process_file printRes renameFails f s)
        { st with stats := { st.stats with
            to_print_entries := st.stats.to_print_entries + 1,
            files_found := st.stats.files_found +
              (st.downloads.filter
                (fun f => glob_match (kv.2.filetype.getD "") f)).length } } := by
  unfold process_entry
  rw [hd]
  simp

/-- Evaluation of `process_entry` on a non-`print` directive: the entry is
only counted as skipped. -/
theorem process_entry_skip (printRes : String → PrintResult)
    (renameFails : String → Bool) (st : ProcState) (kv : String × MemoryEntry)
    (hd : py_lower (py_strip (kv.2.notes.getD "")) ≠ "print") :
    process_entry printRes renameFails st kv =
      { st with stats := { st.stats with
          skipped_entries := st.stats.skipped_entries + 1 } } := by
  unfold process_entry
  rw [if_pos hd]

/-! ## Claims about the categorization memory and the directive processor -/

/-- Claim C4: Memory first-write-wins — for every key already present in
categorization memory, `update_memory` with any new entry leaves the memory
unchanged (the write is a no-op), so fields edited by a human are never
overwritten; an insert happens only when the key is absent. -/
theorem memory_first_write_wins (memory : Memory) (key : String)
    (entry : MemoryEntry) :
    (∀ old, memory_lookup memory key = some old →
        update_memory memory key entry = memory) ∧
    (memory_lookup memory key = none →
        memory_lookup (update_memory memory key entry) key = some entry) := by
  constructor
  · intro old h
    have hany : memory.any (fun kv => kv.1 == key) = true := by
      unfold memory_lookup at h
      cases hf : memory.find? (fun kv => kv.1 == key) with
      | none => rw [hf] at h; simp at h
      | some kv =>
        exact List.any_eq_true.mpr
          ⟨kv, List.mem_of_find?_eq_some hf, by simpa using List.find?_some hf⟩
    simp [update_memory, hany]
  · intro h
    have hnone : memory.find? (fun kv => kv.1 == key) = none := by
      unfold memory_lookup at h
      cases hf : memory.find? (fun kv => kv.1 == key) with
      | none => rfl
      | some kv => rw [hf] at h; simp at h
    have hany : memory.any (fun kv => kv.1 == key) = false := by
      rw [List.any_eq_false]
      intro x hx
      simpa using List.find?_eq_none.mp hnone x hx
    unfold update_memory
    rw [if_neg (by simp [hany])]
    unfold memory_lookup
    rw [List.find?_append, hnone]
    simp

/-- Witness for C4 at a concrete memory: the stored entry survives an
upsert with different fields, and an absent key is inserted. -/
theorem memory_first_write_wins_witness :
    (memory_lookup [("K", sample_print_entry)] "K" = some sample_print_entry ∧
      update_memory [("K", sample_print_entry)] "K" sample_new_entry
        = [("K", sample_print_entry)]) ∧
    (memory_lookup [("K", sample_print_entry)] "J" = none ∧
      memory_lookup (update_memory [("K", sample_print_entry)] "J" sample_new_entry) "J"
        = some sample_new_entry) :=
  ⟨⟨by decide,
    (memory_first_write_wins [("K", sample_print_entry)] "K" sample_new_entry).1
      sample_print_entry (by decide)⟩,
   ⟨by decide,
    (memory_first_write_wins [("K", sample_print_entry)] "J" sample_new_entry).2
      (by decide)⟩⟩

/-- Claim C5: Directive round trip — a memory entry with filetype `.pdf` and
notes `print`, and a download directory holding exactly one file matching
that suffix, yield a run that invokes the print action exactly once with
that file, removes it from the download directory, places it in the archive
directory, and reports `files_found = 1`, `files_printed = 1`,
`archived = 1`, `errors = 0`. -/
theorem directive_round_trip (key fname : String) (e : MemoryEntry)
    (downloads archive : List String)
    (printRes : String → PrintResult) (renameFails : String → Bool)
    (hnotes : e.notes = some "print") (hft : e.filetype = some ".pdf")
    (hmatch : downloads.filter (fun f => glob_match ".pdf" f) = [fname])
    (hp : printRes fname = .success) (hr : renameFails fname = false) :
    (process_memory_entries printRes renameFails [(key, e)] downloads
        archive).printCalls = [fname] ∧
    fname ∉ (process_memory_entries printRes renameFails [(key, e)] downloads
        archive).downloads ∧
    (process_memory_entries printRes renameFails [(key, e)] downloads
        archive).archive = archive ++ [fname] ∧
    (process_memory_entries printRes renameFails [(key, e)] downloads
        archive).stats.files_found = 1 ∧
    (process_memory_entries printRes renameFails [(key, e)] downloads
        archive).stats.files_printed = 1 ∧
    (process_memory_entries printRes renameFails [(key, e)] downloads
        archive).stats.archived = 1 ∧
    (process_memory_entries printRes renameFails [(key, e)] downloads
        archive).stats.errors = 0 := by
  have hd : py_lower (py_strip (((key, e)).2.notes.getD "")) = "print" := by
    rw [show ((key, e)).2.notes = some "print" from hnotes]
    decide
  have hsuf : ((key, e)).2.filetype.getD "" = ".pdf" := by
    rw [show ((key, e)).2.filetype = some ".pdf" from hft]
    rfl
  unfold process_memory_entries
  rw [List.foldl_cons, List.foldl_nil, process_entry_print _ _ _ _ hd, hsuf]
  simp only [hmatch]
  rw [List.foldl_cons, List.foldl_nil,
    process_file_success printRes renameFails fname _ hp hr]
  refine ⟨rfl, ?_, rfl, rfl, rfl, rfl, rfl⟩
  exact not_mem_erase_of_filter_singleton hmatch

/-- Witness for C5: entry `\x7bfiletype: ".pdf", notes: "print"\x7d` with the
single matching file `abc123_report.pdf`. -/
theorem directive_round_trip_witness :
    (["abc123_report.pdf"].filter (fun f => glob_match ".pdf" f)
        = ["abc123_report.pdf"]) ∧
    ((process_memory_entries (fun _ => .success) (fun _ => false)
        [("SENDER::alice@example.com::.pdf", sample_print_entry)]
        ["abc123_report.pdf"] []).printCalls = ["abc123_report.pdf"] ∧
      (process_memory_entries (fun _ => .success) (fun _ => false)
        [("SENDER::alice@example.com::.pdf", sample_print_entry)]
        ["abc123_report.pdf"] []).archive = [] ++ ["abc123_report.pdf"] ∧
      (process_memory_entries (fun _ => .success) (fun _ => false)
        [("SENDER::alice@example.com::.pdf", sample_print_entry)]
        ["abc123_report.pdf"] []).stats.files_printed = 1) := by
  refine ⟨by decide, ?_, ?_, ?_⟩
  · exact (directive_round_trip "SENDER::alice@example.com::.pdf"
      "abc123_report.pdf" sample_print_entry ["abc123_report.pdf"] []
      (fun _ => .success) (fun _ => false) rfl rfl (by decide) rfl rfl).1
  · exact (directive_round_trip "SENDER::alice@example.com::.pdf"
      "abc123_report.pdf" sample_print_entry ["abc123_report.pdf"] []
      (fun _ => .success) (fun _ => false) rfl rfl (by decide) rfl rfl).2.2.1
  · exact (directive_round_trip "SENDER::alice@example.com::.pdf"
      "abc123_report.pdf" sample_print_entry ["abc123_report.pdf"] []
      (fun _ => .success) (fun _ => false) rfl rfl (by decide) rfl rfl).2.2.2.2.1

/-- Claim C8: Per-file failure isolation in the directive processor — when the
print action throws for one file among three candidates, the other two are
still printed and archived, the error counter is exactly one, and the
failed file stays in the download directory (it is not archived). -/
theorem per_file_failure_isolated (key : String) (e : MemoryEntry)
    (downloads archive : List String) (f1 f2 f3 : String)
    (printRes : String → PrintResult) (renameFails : String → Bool)
    (hnotes : py_lower (py_strip (e.notes.getD "")) = "print")
    (hmatch : downloads.filter (fun f => glob_match (e.filetype.getD "") f)
        = [f1, f2, f3])
    (h21 : f2 ≠ f1) (h23 : f2 ≠ f3)
    (hp1 : printRes f1 = .success) (hp2 : printRes f2 = .calledProcessError)
    (hp3 : printRes f3 = .success)
    (hr1 : renameFails f1 = false) (hr3 : renameFails f3 = false)
    (harc : f2 ∉ archive) :
    ∀ st, process_memory_entries printRes renameFails [(key, e)] downloads archive
        = st →
      st.stats.errors = 1 ∧ st.stats.files_printed = 2 ∧ st.stats.archived = 2 ∧
      st.printCalls = [f1, f2, f3] ∧ st.archive = archive ++ [f1, f3] ∧
      f2 ∈ st.downloads ∧ f2 ∉ st.archive := by
  intro st hst
  subst hst
  have hd : py_lower (py_strip (((key, e)).2.notes.getD "")) = "print" := hnotes
  have hf2mem : f2 ∈ downloads := by
    have h2f : f2 ∈ downloads.filter
        (fun f => glob_match (e.filetype.getD "") f) := by
      rw [hmatch]; simp
    exact (List.mem_filter.mp h2f).1
  unfold process_memory_entries
  rw [List.foldl_cons, List.foldl_nil, process_entry_print _ _ _ _ hd]
  simp only [hmatch]
  rw [List.foldl_cons, process_file_success printRes renameFails f1 _ hp1 hr1,
      List.foldl_cons, process_file_print_failure printRes renameFails f2 _ hp2,
      List.foldl_cons, process_file_success printRes renameFails f3 _ hp3 hr3,
      List.foldl_nil]
  refine ⟨rfl, rfl, rfl, rfl, by simp, ?_, ?_⟩
  · exact (List.mem_erase_of_ne h23).mpr ((List.mem_erase_of_ne h21).mpr hf2mem)
  · simp [List.mem_append, harc, h21, h23]

/-- Witness for C8: three matching files, the print subprocess fails with a
nonzero exit on the second. -/
theorem per_file_failure_isolated_witness :
    (["a.pdf", "b.pdf", "c.pdf"].filter
        (fun f => glob_match (sample_print_entry.filetype.getD "") f)
      = ["a.pdf", "b.pdf", "c.pdf"]) ∧
    ((process_memory_entries
        (fun f => if f = "b.pdf" then .calledProcessError else .success)
        (fun _ => false) [("K", sample_print_entry)]
        ["a.pdf", "b.pdf", "c.pdf"] []).stats.errors = 1 ∧
      (process_memory_entries
        (fun f => if f = "b.pdf" then .calledProcessError else .success)
        (fun _ => false) [("K", sample_print_entry)]
        ["a.pdf", "b.pdf", "c.pdf"] []).stats.files_printed = 2 ∧
      (process_memory_entries
        (fun f => if f = "b.pdf" then .calledProcessError else .success)
        (fun _ => false) [("K", sample_print_entry)]
        ["a.pdf", "b.pdf", "c.pdf"] []).stats.archived = 2 ∧
      (process_memory_entries
        (fun f => if f = "b.pdf" then .calledProcessError else .success)
        (fun _ => false) [("K", sample_print_entry)]
        ["a.pdf", "b.pdf", "c.pdf"] []).printCalls = ["a.pdf", "b.pdf", "c.pdf"] ∧
      (process_memory_entries
        (fun f => if f = "b.pdf" then .calledProcessError else .success)
        (fun _ => false) [("K", sample_print_entry)]
        ["a.pdf", "b.pdf", "c.pdf"] []).archive = [] ++ ["a.pdf", "c.pdf"] ∧
      "b.pdf" ∈ (process_memory_entries
        (fun f => if f = "b.pdf" then .calledProcessError else .success)
        (fun _ => false) [("K", sample_print_entry)]
        ["a.pdf", "b.pdf", "c.pdf"] []).downloads ∧
      "b.pdf" ∉ (process_memory_entries
        (fun f => if f = "b.pdf" then .calledProcessError else .success)
        (fun _ => false) [("K", sample_print_entry)]
        ["a.pdf", "b.pdf", "c.pdf"] []).archive) :=
  ⟨by decide,
   per_file_failure_isolated "K" sample_print_entry
      ["a.pdf", "b.pdf", "c.pdf"] [] "a.pdf" "b.pdf" "c.pdf"
      (fun f => if f = "b.pdf" then .calledProcessError else .success)
      (fun _ => false) (by decide) (by decide) (by decide) (by decide)
      (by decide) (by decide) (by decide) (by decide) (by decide) (by decide)
      (process_memory_entries
        (fun f => if f = "b.pdf" then .calledProcessError else .success)
        (fun _ => false) [("K", sample_print_entry)]
        ["a.pdf", "b.pdf", "c.pdf"] []) rfl⟩

/-- Claim C9: a `print` entry whose filetype field is absent or empty makes
the glob pattern degenerate to `*`: every file currently in the download
directory is matched, passed to the print action, and archived. -/
theorem empty_filetype_matches_everything (key : String) (e : MemoryEntry)
    (downloads archive : List String)
    (printRes : String → PrintResult) (renameFails : String → Bool)
    (hnotes : py_lower (py_strip (e.notes.getD "")) = "print")
    (hft : e.filetype.getD "" = "")
    (hok : ∀ f, printRes f = .success) (hrn : ∀ f, renameFails f = false) :
    ∀ st, process_memory_entries printRes renameFails [(key, e)] downloads archive
        = st →
      st.printCalls = downloads ∧ st.downloads = [] ∧
      st.archive = archive ++ downloads ∧
      st.stats.files_found = downloads.length := by
  intro st hst
  subst hst
  have hd : py_lower (py_strip (((key, e)).2.notes.getD "")) = "print" := hnotes
  unfold process_memory_entries
  rw [List.foldl_cons, List.foldl_nil, process_entry_print _ _ _ _ hd]
  simp only [hft, glob_match_empty, List.filter_true]
  have := foldl_process_file_success printRes renameFails hok hrn downloads
    { downloads := downloads, archive := archive, printCalls := [],
      stats := { total_entries := [(key, e)].length, to_print_entries := 0 + 1,
                 skipped_entries := 0, files_found := 0 + downloads.length,
                 files_printed := 0, archived := 0, errors := 0 } } rfl
  refine ⟨?_, this.1, ?_, ?_⟩
  · simpa using this.2.2.1
  · exact this.2.1
  · simpa using this.2.2.2.2.2.2

/-- Witness for C9: an entry with no filetype and two unrelated files. -/
theorem empty_filetype_matches_everything_witness :
    (py_lower (py_strip (sample_untyped_entry.notes.getD "")) = "print" ∧
      sample_untyped_entry.filetype.getD "" = "") ∧
    ((process_memory_entries (fun _ => .success) (fun _ => false)
        [("K", sample_untyped_entry)] ["x.csv", "y.jpg"]
        ["old.txt"]).printCalls = ["x.csv", "y.jpg"] ∧
      (process_memory_entries (fun _ => .success) (fun _ => false)
        [("K", sample_untyped_entry)] ["x.csv", "y.jpg"]
        ["old.txt"]).downloads = [] ∧
      (process_memory_entries (fun _ => .success) (fun _ => false)
        [("K", sample_untyped_entry)] ["x.csv", "y.jpg"]
        ["old.txt"]).archive = ["old.txt"] ++ ["x.csv", "y.jpg"] ∧
      (process_memory_entries (fun _ => .success) (fun _ => false)
        [("K", sample_untyped_entry)] ["x.csv", "y.jpg"]
        ["old.txt"]).stats.files_found = ["x.csv", "y.jpg"].length) :=
  ⟨⟨by decide, by decide⟩,
   empty_filetype_matches_everything "K" sample_untyped_entry
      ["x.csv", "y.jpg"] ["old.txt"] (fun _ => .success) (fun _ => false)
      (by decide) (by decide) (fun _ => rfl) (fun _ => rfl)
      (process_memory_entries (fun _ => .success) (fun _ => false)
        [("K", sample_untyped_entry)] ["x.csv", "y.jpg"] ["old.txt"]) rfl⟩

/-- Step `process_file` never lets `archived` overtake `files_printed`. -/
theorem process_file_archived_le (printRes : String → PrintResult)
    (renameFails : String → Bool) (f : String) (st : ProcState)
    (h : st.stats.archived ≤ st.stats.files_printed) :
    (process_file printRes renameFails f st).stats.archived ≤
      (process_file printRes renameFails f st).stats.files_printed := by
  unfold process_file
  cases printRes f with
  | calledProcessError => simpa using h
  | otherFailure => simpa using h
  | success =>
    cases hr : renameFails f with
    | true => simp [hr]; omega
    | false => simp [hr]; omega

/-- The fold of `process_file` preserves `archived ≤ files_printed`. -/
theorem foldl_archived_le (printRes : String → PrintResult)
    (renameFails : String → Bool) (l : List String) :
    ∀ st : ProcState, st.stats.archived ≤ st.stats.files_printed →
      (l.foldl (fun s f => process_file printRes renameFails f s) st).stats.archived ≤
        (l.foldl (fun s f => process_file printRes renameFails f s) st).stats.files_printed := by
  induction l with
  | nil => intro st h; simpa using h
  | cons a t ih =>
    intro st h
    exact ih _ (process_file_archived_le printRes renameFails a st h)

/-- Step `process_entry` preserves `archived ≤ files_printed`. -/
theorem process_entry_archived_le (printRes : String → PrintResult)
    (renameFails : String → Bool) (kv : String × MemoryEntry)
    (st : ProcState) (h : st.stats.archived ≤ st.stats.files_printed) :
    (process_entry printRes renameFails st kv).stats.archived ≤
      (process_entry printRes renameFails st kv).stats.files_printed := by
  by_cases hd : py_lower (py_strip (kv.2.notes.getD "")) = "print"
  · rw [process_entry_print printRes renameFails st kv hd]
    exact foldl_archived_le printRes renameFails _ _ (by simpa using h)
  · rw [process_entry_skip printRes renameFails st kv hd]
    simpa using h

/-- The entry fold preserves `archived ≤ files_printed`. -/
theorem entries_foldl_archived_le (printRes : String → PrintResult)
    (renameFails : String → Bool) (memory : Memory) :
    ∀ st : ProcState, st.stats.archived ≤ st.stats.files_printed →
      ((memory.foldl (process_entry printRes renameFails) st).stats.archived ≤
        (memory.foldl (process_entry printRes renameFails) st).stats.files_printed) := by
  induction memory with
  | nil => intro st h; simpa using h
  | cons kv rest ih =>
    intro st h
    exact ih _ (process_entry_archived_le printRes renameFails kv st h)

/-- Every directive-processor run reports `archived ≤ files_printed`. -/
theorem pme_archived_le (printRes : String → PrintResult)
    (renameFails : String → Bool) (memory : Memory)
    (downloads archive : List String) :
    (process_memory_entries printRes renameFails memory downloads
        archive).stats.archived ≤
      (process_memory_entries printRes renameFails memory downloads
        archive).stats.files_printed := by
  unfold process_memory_entries
  exact entries_foldl_archived_le printRes renameFails memory _ (by simp)

/-- Claim C10: if the print subprocess succeeds for a file but the rename into
the archive throws, the run counts the file under `files_printed` and under
`errors` while `archived` is not incremented and the file stays in the
download directory; consequently `files_printed ≥ archived` after every run,
while `files_printed = archived` fails on a concrete run. -/
theorem printed_not_archived_on_rename_failure
    (printRes : String → PrintResult) (renameFails : String → Bool)
    (file : String) (st : ProcState)
    (hp : printRes file = .success) (hr : renameFails file = true) :
    (process_file printRes renameFails file st =
      { st with printCalls := st.printCalls ++ [file],
                stats := { st.stats with
                  files_printed := st.stats.files_printed + 1,
                  errors := st.stats.errors + 1 } }) ∧
    (∀ (pr : String → PrintResult) (rf : String → Bool) (memory : Memory)
        (downloads archive : List String),
      (process_memory_entries pr rf memory downloads archive).stats.archived ≤
        (process_memory_entries pr rf memory downloads archive).stats.files_printed) ∧
    ((process_memory_entries (fun _ => .success) (fun _ => true)
        [("K", sample_print_entry)] ["a.pdf"] []).stats.files_printed = 1 ∧
      (process_memory_entries (fun _ => .success) (fun _ => true)
        [("K", sample_print_entry)] ["a.pdf"] []).stats.archived = 0 ∧
      (process_memory_entries (fun _ => .success) (fun _ => true)
        [("K", sample_print_entry)] ["a.pdf"] []).stats.errors = 1 ∧
      (process_memory_entries (fun _ => .success) (fun _ => true)
        [("K", sample_print_entry)] ["a.pdf"] []).downloads = ["a.pdf"]) := by
  refine ⟨process_file_rename_failure printRes renameFails file st hp hr, ?_, ?_⟩
  · intro pr rf memory downloads archive
    exact pme_archived_le pr rf memory downloads archive
  · exact ⟨by decide, by decide, by decide, by decide⟩

/-- Witness for C10 at a concrete print tool that succeeds while every
rename raises. -/
theorem printed_not_archived_on_rename_failure_witness :
    process_file (fun _ => .success) (fun _ => true) "a.pdf"
      { downloads := ["a.pdf"], archive := [], printCalls := [],
        stats := { total_entries := 1, to_print_entries := 1,
                   skipped_entries := 0, files_found := 1, files_printed := 0,
                   archived := 0, errors := 0 } } =
      { downloads := ["a.pdf"], archive := [], printCalls := [] ++ ["a.pdf"],
        stats := { total_entries := 1, to_print_entries := 1,
                   skipped_entries := 0, files_found := 1,
                   files_printed := 0 + 1, archived := 0, errors := 0 + 1 } } :=
  (printed_not_archived_on_rename_failure (fun _ => .success) (fun _ => true)
    "a.pdf"
    { downloads := ["a.pdf"], archive := [], printCalls := [],
      stats := { total_entries := 1, to_print_entries := 1,
                 skipped_entries := 0, files_found := 1, files_printed := 0,
                 archived := 0, errors := 0 } } rfl rfl).1

/-! ## Claims about the history store and `main` -/

/-- Claim C7, counterexample: the claim says `load_history` returns an empty
record rather than raising on malformed JSON; but `json.load` runs with no
handler in `load_history`, so a malformed history file makes it raise. -/
theorem load_history_malformed_raises :
    load_history (.malformed "not valid json") = .error .decodeError := rfl

/-- Claim C7, amended: `load_history` returns an empty record when the file
is absent; when the file exists but holds malformed JSON it raises (the
decode error propagates); and `save_history` overwrites the backing file
unconditionally, so a load after any successful save recovers exactly the
saved record (in particular a previously corrupt file is replaced). -/
theorem load_history_amended :
    (load_history .absent = .ok ⟨∅, ∅⟩) ∧
    (∀ s : String, load_history (.malformed s) = .error .decodeError) ∧
    (∀ h : History, load_history (save_history h) = .ok h) := by
  refine ⟨rfl, fun s => rfl, fun h => ?_⟩
  cases h with
  | mk ms atts => simp [load_history, save_history, Finset.sort_toFinset]

/-- Claim C2: Save-on-exit — whenever the credentials check passes and loading
the history file succeeds with record `h0`, `main` invokes `save_history`
with the final mutated history — on the success path and on the path where
`download_attachments` raises alike (the save sits in `finally`). -/
theorem save_history_on_every_exit (hash : List Nat → String)
    (hfile : HistoryFileState) (pages : List (List GmailMessage)) (h0 : History)
    (hload : load_history hfile = .ok h0) :
    (gmail_main hash true hfile pages).saved =
      some (download_attachments hash pages h0).1.history := by
  unfold gmail_main
  rw [hload]
  cases hflow : (download_attachments hash pages h0).2 <;> simp [hflow]

/-- Witness for C2: an absent history file and a one-message mailbox. -/
theorem save_history_on_every_exit_witness :
    load_history .absent = .ok ⟨∅, ∅⟩ ∧
    (gmail_main digest true .absent [[msgA]]).saved =
      some (download_attachments digest [[msgA]] ⟨∅, ∅⟩).1.history :=
  ⟨rfl, save_history_on_every_exit digest .absent [[msgA]] ⟨∅, ∅⟩ rfl⟩

/-! ## Unfolding equations for the retriever loops -/

/-- The examination cap fires before everything else in the message loop. -/
theorem process_messages_cons_cap (hash : List Nat → String) (m : GmailMessage)
    (rest : List GmailMessage) (st : DState) (h : st.msgs_examined ≥ 10) :
    process_messages hash (m :: rest) st = (st, .returned) := by
  unfold process_messages
  rw [if_pos h]

/-- An already-seen message is counted and skipped. -/
theorem process_messages_cons_skip (hash : List Nat → String) (m : GmailMessage)
    (rest : List GmailMessage) (st : DState)
    (hcap : ¬ st.msgs_examined ≥ 10) (hmem : m.id ∈ st.history.message_ids) :
    process_messages hash (m :: rest) st =
      process_messages hash rest { st with msgs_examined := st.msgs_examined + 1 } := by
  simp only [process_messages]
  rw [if_neg hcap, if_pos (show m.id ∈
    ({ st with msgs_examined := st.msgs_examined + 1 } : DState).history.message_ids
    from hmem)]

/-- A provider error on the full-message fetch propagates immediately: the
remaining messages of the run are dropped. -/
theorem process_messages_cons_err (hash : List Nat → String) (m : GmailMessage)
    (rest : List GmailMessage) (st : DState)
    (hcap : ¬ st.msgs_examined ≥ 10) (hmem : m.id ∉ st.history.message_ids)
    (herr : m.fetch = .error ()) :
    process_messages hash (m :: rest) st =
      ({ st with msgs_examined := st.msgs_examined + 1 }, .raised) := by
  simp only [process_messages]
  rw [if_neg hcap, if_neg (show ¬ m.id ∈
    ({ st with msgs_examined := st.msgs_examined + 1 } : DState).history.message_ids
    from hmem), herr]

/-- A fresh message with a successful fetch processes its parts and then
marks the id seen before continuing. -/
theorem process_messages_cons_ok (hash : List Nat → String) (m : GmailMessage)
    (rest : List GmailMessage) (st : DState) (full : FullMessage)
    (hcap : ¬ st.msgs_examined ≥ 10) (hmem : m.id ∉ st.history.message_ids)
    (hok : m.fetch = .ok full) :
    process_messages hash (m :: rest) st =
      (let pr := process_parts hash
          (header_value full.headers "Subject" "(no subject)")
          (header_value full.headers "From" "(no sender)") full.parts
          { st with msgs_examined := st.msgs_examined + 1 }
       if pr.2 then (pr.1, .raised)
       else process_messages hash rest
         { pr.1 with history := { pr.1.history with
             message_ids := insert m.id pr.1.history.message_ids } }) := by
  simp only [process_messages]
  rw [if_neg hcap, if_neg (show ¬ m.id ∈
    ({ st with msgs_examined := st.msgs_examined + 1 } : DState).history.message_ids
    from hmem), hok]

/-- One page step of the pagination loop. -/
theorem process_pages_cons (hash : List Nat → String) (page : List GmailMessage)
    (rest : List (List GmailMessage)) (st : DState) :
    process_pages hash (page :: rest) st =
      (match process_messages hash page st with
        | (st1, .finished) => process_pages hash rest st1
        | r => r) := by
  simp only [process_pages]

/-- Part step: a part without a filename is skipped. -/
theorem process_parts_cons_noname (hash : List Nat → String)
    (subject sender : String) (p : Part) (rest : List Part) (st : DState)
    (hf : p.filename = "") :
    process_parts hash subject sender (p :: rest) st =
      process_parts hash subject sender rest st := by
  simp only [process_parts, if_pos hf]

/-- Part step: a part without an attachment id is skipped. -/
theorem process_parts_cons_noid (hash : List Nat → String)
    (subject sender : String) (p : Part) (rest : List Part) (st : DState)
    (hf : ¬ p.filename = "") (hatt : p.attachment = none) :
    process_parts hash subject sender (p :: rest) st =
      process_parts hash subject sender rest st := by
  simp only [process_parts, if_neg hf, hatt]

/-- Part step: a provider error while fetching the attachment payload
propagates, dropping the remaining parts. -/
theorem process_parts_cons_err (hash : List Nat → String)
    (subject sender : String) (p : Part) (rest : List Part) (st : DState)
    (hf : ¬ p.filename = "") (hatt : p.attachment = some (.error ())) :
    process_parts hash subject sender (p :: rest) st = (st, true) := by
  simp only [process_parts, if_neg hf, hatt]

/-- Part step: an already-fingerprinted payload is skipped. -/
theorem process_parts_cons_dup (hash : List Nat → String)
    (subject sender : String) (p : Part) (rest : List Part) (st : DState)
    (data : List Nat) (hf : ¬ p.filename = "")
    (hatt : p.attachment = some (.ok data))
    (hdup : hash data ∈ st.history.attachments) :
    process_parts hash subject sender (p :: rest) st =
      process_parts hash subject sender rest st := by
  simp only [process_parts, if_neg hf, hatt, if_pos hdup]

/-- Part step: a fresh payload is written under its digest-derived name and
its digest is fingerprinted. -/
theorem process_parts_cons_write (hash : List Nat → String)
    (subject sender : String) (p : Part) (rest : List Part) (st : DState)
    (data : List Nat) (hf : ¬ p.filename = "")
    (hatt : p.attachment = some (.ok data))
    (hdup : ¬ hash data ∈ st.history.attachments) :
    process_parts hash subject sender (p :: rest) st =
      process_parts hash subject sender rest
        { st with
          written := st.written ++ [(hash data ++ "_" ++ p.filename, data)],
          history := { st.history with
            attachments := insert (hash data) st.history.attachments },
          new_files := st.new_files ++
            [⟨hash data ++ "_" ++ p.filename, subject, sender, p.filename⟩] } := by
  simp only [process_parts, if_neg hf, hatt, if_neg hdup]

/-- Fresh message, successful fetch, and a provider error inside the parts
loop: the exception propagates with the partially mutated state. -/
theorem process_messages_cons_ok_raised (hash : List Nat → String)
    (m : GmailMessage) (rest : List GmailMessage) (st : DState)
    (full : FullMessage)
    (hcap : ¬ st.msgs_examined ≥ 10) (hmem : m.id ∉ st.history.message_ids)
    (hok : m.fetch = .ok full)
    (hpr : (process_parts hash
        (header_value full.headers "Subject" "(no subject)")
        (header_value full.headers "From" "(no sender)") full.parts
        { st with msgs_examined := st.msgs_examined + 1 }).2 = true) :
    process_messages hash (m :: rest) st =
      ((process_parts hash
          (header_value full.headers "Subject" "(no subject)")
          (header_value full.headers "From" "(no sender)") full.parts
          { st with msgs_examined := st.msgs_examined + 1 }).1, .raised) := by
  rw [process_messages_cons_ok hash m rest st full hcap hmem hok]
  simp [hpr]

/-- Fresh message, successful fetch, parts processed without error: the id
is marked seen and the loop continues. -/
theorem process_messages_cons_ok_done (hash : List Nat → String)
    (m : GmailMessage) (rest : List GmailMessage) (st : DState)
    (full : FullMessage)
    (hcap : ¬ st.msgs_examined ≥ 10) (hmem : m.id ∉ st.history.message_ids)
    (hok : m.fetch = .ok full)
    (hpr : (process_parts hash
        (header_value full.headers "Subject" "(no subject)")
        (header_value full.headers "From" "(no sender)") full.parts
        { st with msgs_examined := st.msgs_examined + 1 }).2 = false) :
    process_messages hash (m :: rest) st =
      process_messages hash rest
        { (process_parts hash
            (header_value full.headers "Subject" "(no subject)")
            (header_value full.headers "From" "(no sender)") full.parts
            { st with msgs_examined := st.msgs_examined + 1 }).1 with
          history := { (process_parts hash
              (header_value full.headers "Subject" "(no subject)")
              (header_value full.headers "From" "(no sender)") full.parts
              { st with msgs_examined := st.msgs_examined + 1 }).1.history with
            message_ids := insert m.id (process_parts hash
              (header_value full.headers "Subject" "(no subject)")
              (header_value full.headers "From" "(no sender)") full.parts
              { st with msgs_examined := st.msgs_examined + 1 }).1.history.message_ids } } := by
  rw [process_messages_cons_ok hash m rest st full hcap hmem hok]
  simp [hpr]

/-- The parts loop never touches `message_ids` or the examination counter. -/
theorem process_parts_frame (hash : List Nat → String) (subject sender : String) :
    ∀ (parts : List Part) (st : DState),
      ((process_parts hash subject sender parts st).1.history.message_ids
        = st.history.message_ids) ∧
      ((process_parts hash subject sender parts st).1.msgs_examined
        = st.msgs_examined) := by
  intro parts
  induction parts with
  | nil => intro st; exact ⟨rfl, rfl⟩
  | cons p rest ih =>
    intro st
    by_cases hf : p.filename = ""
    · rw [process_parts_cons_noname hash subject sender p rest st hf]
      exact ih st
    · cases hatt : p.attachment with
      | none =>
        rw [process_parts_cons_noid hash subject sender p rest st hf hatt]
        exact ih st
      | some exc =>
        cases exc with
        | error e =>
          cases e
          rw [process_parts_cons_err hash subject sender p rest st hf hatt]
          exact ⟨rfl, rfl⟩
        | ok data =>
          by_cases hdup : hash data ∈ st.history.attachments
          · rw [process_parts_cons_dup hash subject sender p rest st data hf hatt hdup]
            exact ih st
          · rw [process_parts_cons_write hash subject sender p rest st data hf hatt hdup]
            exact ih _

/-- Set `message_ids` only grows along the message loop. -/
theorem process_messages_ids_mono (hash : List Nat → String) :
    ∀ (msgs : List GmailMessage) (st : DState),
      st.history.message_ids ⊆ (process_messages hash msgs st).1.history.message_ids := by
  intro msgs
  induction msgs with
  | nil => intro st; exact Finset.Subset.refl _
  | cons m rest ih =>
    intro st
    by_cases hcap : st.msgs_examined ≥ 10
    · rw [process_messages_cons_cap hash m rest st hcap]
    · by_cases hmem : m.id ∈ st.history.message_ids
      · rw [process_messages_cons_skip hash m rest st hcap hmem]
        exact ih { st with msgs_examined := st.msgs_examined + 1 }
      · cases hfetch : m.fetch with
        | error e =>
          cases e
          rw [process_messages_cons_err hash m rest st hcap hmem hfetch]
        | ok full =>
          have hfr := (process_parts_frame hash
            (header_value full.headers "Subject" "(no subject)")
            (header_value full.headers "From" "(no sender)") full.parts
            { st with msgs_examined := st.msgs_examined + 1 }).1
          have h2 : (process_parts hash
              (header_value full.headers "Subject" "(no subject)")
              (header_value full.headers "From" "(no sender)") full.parts
              { st with msgs_examined := st.msgs_examined + 1 }).1.history.message_ids
              = st.history.message_ids := hfr
          cases hpr : (process_parts hash
              (header_value full.headers "Subject" "(no subject)")
              (header_value full.headers "From" "(no sender)") full.parts
              { st with msgs_examined := st.msgs_examined + 1 }).2 with
          | true =>
            rw [process_messages_cons_ok_raised hash m rest st full hcap hmem hfetch hpr]
            rw [show st.history.message_ids = (process_parts hash
                (header_value full.headers "Subject" "(no subject)")
                (header_value full.headers "From" "(no sender)") full.parts
                { st with msgs_examined := st.msgs_examined + 1 }).1.history.message_ids
              from h2.symm]
          | false =>
            rw [process_messages_cons_ok_done hash m rest st full hcap hmem hfetch hpr]
            refine Finset.Subset.trans ?_ (ih _)
            rw [show st.history.message_ids = (process_parts hash
                (header_value full.headers "Subject" "(no subject)")
                (header_value full.headers "From" "(no sender)") full.parts
                { st with msgs_examined := st.msgs_examined + 1 }).1.history.message_ids
              from h2.symm]
            exact Finset.subset_insert _ _

/-- Set `message_ids` only grows along the pagination loop. -/
theorem process_pages_ids_mono (hash : List Nat → String) :
    ∀ (pages : List (List GmailMessage)) (st : DState),
      st.history.message_ids ⊆ (process_pages hash pages st).1.history.message_ids := by
  intro pages
  induction pages with
  | nil => intro st; exact Finset.Subset.refl _
  | cons page rest ih =>
    intro st
    rcases hR : process_messages hash page st with ⟨s1, f1⟩
    have h1 : st.history.message_ids ⊆ s1.history.message_ids := by
      have := process_messages_ids_mono hash page st
      rw [hR] at this
      exact this
    rw [process_pages_cons, hR]
    cases f1 with
    | finished => exact h1.trans (ih s1)
    | returned => exact h1
    | raised => exact h1

/-- The parts loop preserves the deduplication invariant: a payload is
written only when its digest is not yet fingerprinted, and the digest is
fingerprinted together with the write. -/
theorem process_parts_dedup (hash : List Nat → String) (subject sender : String)
    (h0 : History) :
    ∀ (parts : List Part) (st : DState), DedupInv hash h0 st →
      DedupInv hash h0 (process_parts hash subject sender parts st).1 := by
  intro parts
  induction parts with
  | nil => intro st h; exact h
  | cons p rest ih =>
    intro st h
    by_cases hf : p.filename = ""
    · rw [process_parts_cons_noname hash subject sender p rest st hf]
      exact ih st h
    · cases hatt : p.attachment with
      | none =>
        rw [process_parts_cons_noid hash subject sender p rest st hf hatt]
        exact ih st h
      | some exc =>
        cases exc with
        | error e =>
          cases e
          rw [process_parts_cons_err hash subject sender p rest st hf hatt]
          exact h
        | ok data =>
          by_cases hdup : hash data ∈ st.history.attachments
          · rw [process_parts_cons_dup hash subject sender p rest st data hf hatt hdup]
            exact ih st h
          · rw [process_parts_cons_write hash subject sender p rest st data hf hatt hdup]
            apply ih
            obtain ⟨hnd, hfresh, heq⟩ := h
            have hnew1 : hash data ∉ written_hashes hash st := by
              intro hx
              exact hdup (by
                rw [heq]
                exact Finset.mem_union_right _ (List.mem_toFinset.mpr hx))
            have hnew2 : hash data ∉ h0.attachments := by
              intro hx
              exact hdup (by rw [heq]; exact Finset.mem_union_left _ hx)
            have hwh : written_hashes hash
                { st with
                  written := st.written ++ [(hash data ++ "_" ++ p.filename, data)],
                  history := { st.history with
                    attachments := insert (hash data) st.history.attachments },
                  new_files := st.new_files ++
                    [⟨hash data ++ "_" ++ p.filename, subject, sender, p.filename⟩] }
                = written_hashes hash st ++ [hash data] := by
              simp [written_hashes]
            refine ⟨?_, ?_, ?_⟩
            · rw [hwh, List.nodup_append]
              refine ⟨hnd, List.nodup_singleton _, ?_⟩
              intro x hx hx'
              rw [List.mem_singleton] at hx'
              subst hx'
              exact hnew1 hx
            · rw [hwh]
              intro x hx
              rcases List.mem_append.mp hx with hx | hx
              · exact hfresh x hx
              · rw [List.mem_singleton] at hx
                subst hx
                exact hnew2
            · rw [hwh]
              show insert (hash data) st.history.attachments = _
              rw [heq]
              ext a
              simp only [Finset.mem_insert, Finset.mem_union, List.mem_toFinset,
                List.mem_append, List.mem_singleton]
              tauto

/-- The message loop preserves the deduplication invariant. -/
theorem process_messages_dedup (hash : List Nat → String) (h0 : History) :
    ∀ (msgs : List GmailMessage) (st : DState), DedupInv hash h0 st →
      DedupInv hash h0 (process_messages hash msgs st).1 := by
  intro msgs
  induction msgs with
  | nil => intro st h; exact h
  | cons m rest ih =>
    intro st h
    by_cases hcap : st.msgs_examined ≥ 10
    · rw [process_messages_cons_cap hash m rest st hcap]
      exact h
    · by_cases hmem : m.id ∈ st.history.message_ids
      · rw [process_messages_cons_skip hash m rest st hcap hmem]
        exact ih _ h
      · cases hfetch : m.fetch with
        | error e =>
          cases e
          rw [process_messages_cons_err hash m rest st hcap hmem hfetch]
          exact h
        | ok full =>
          have hparts := process_parts_dedup hash
            (header_value full.headers "Subject" "(no subject)")
            (header_value full.headers "From" "(no sender)") h0 full.parts
            { st with msgs_examined := st.msgs_examined + 1 } h
          cases hpr : (process_parts hash
              (header_value full.headers "Subject" "(no subject)")
              (header_value full.headers "From" "(no sender)") full.parts
              { st with msgs_examined := st.msgs_examined + 1 }).2 with
          | true =>
            rw [process_messages_cons_ok_raised hash m rest st full hcap hmem hfetch hpr]
            exact hparts
          | false =>
            rw [process_messages_cons_ok_done hash m rest st full hcap hmem hfetch hpr]
            exact ih _ hparts

/-- The pagination loop preserves the deduplication invariant. -/
theorem process_pages_dedup (hash : List Nat → String) (h0 : History) :
    ∀ (pages : List (List GmailMessage)) (st : DState), DedupInv hash h0 st →
      DedupInv hash h0 (process_pages hash pages st).1 := by
  intro pages
  induction pages with
  | nil => intro st h; exact h
  | cons page rest ih =>
    intro st h
    have hmsg := process_messages_dedup hash h0 page st h
    rcases hR : process_messages hash page st with ⟨s1, f1⟩
    rw [hR] at hmsg
    rw [process_pages_cons, hR]
    cases f1 with
    | finished => exact ih s1 hmsg
    | returned => exact hmsg
    | raised => exact hmsg

/-! ## Claims about the attachment retriever -/

/-- Claim C1, counterexample: the claim fails on the revisions that scope the
fingerprint key per message (`src/Tools/Gmail_Downloader.py`,
`src/AI_Agent/tools/gmail_downloader.py`): two messages carrying byte-wise
identical attachments produce two writes into the download directory and two
new fingerprint entries, not at most one write and exactly one entry. -/
theorem dedup_scoped_counterexample :
    ((scoped_download_attachments digest [msgA, msgB] ⟨∅, ∅⟩).1.written
        = [("a.pdf", [1, 2, 3]), ("b.pdf", [1, 2, 3])]) ∧
    (scoped_download_attachments digest [msgA, msgB] ⟨∅, ∅⟩).1.history.attachments
        = {"m1:" ++ digest [1, 2, 3], "m2:" ++ digest [1, 2, 3]} ∧
    (scoped_download_attachments digest [msgA, msgB]
        ⟨∅, ∅⟩).1.history.attachments.card = 2 := by
  refine ⟨by decide, by decide, by decide⟩

/-- Claim C1, amended: in the primary revision
(`src/tools/gmail_downloader.py`), whose fingerprint keys are the bare
content hashes, deduplication is global: over any run the digests of the
written payloads are pairwise distinct (so two attachments with identical
bytes — in the same or in different messages — yield at most one write),
none of them was fingerprinted before the run, and the fingerprint set gains
exactly the digests of the written payloads (one entry per written file).
In the per-message-scoped revisions the same content arriving in two
messages is downloaded once per message instead. -/
theorem dedup_global_hash (hash : List Nat → String)
    (pages : List (List GmailMessage)) (h0 : History) :
    ((download_attachments hash pages h0).1.written.map (fun f => hash f.2)).Nodup ∧
    (∀ f ∈ (download_attachments hash pages h0).1.written,
      hash f.2 ∉ h0.attachments) ∧
    (download_attachments hash pages h0).1.history.attachments =
      h0.attachments ∪
        ((download_attachments hash pages h0).1.written.map
          (fun f => hash f.2)).toFinset := by
  have hinit : DedupInv hash h0 (init_state h0) := by
    refine ⟨List.nodup_nil, ?_, ?_⟩
    · intro x hx
      simp [written_hashes, init_state] at hx
    · simp [written_hashes, init_state]
  have h := process_pages_dedup hash h0 pages (init_state h0) hinit
  obtain ⟨h1, h2, h3⟩ := h
  exact ⟨h1, fun f hf => h2 (hash f.2) (List.mem_map_of_mem _ hf), h3⟩

/-- Witness for the amended C1: in the two-identical-attachments run, the
first payload is written and its digest was not previously fingerprinted. -/
theorem dedup_global_hash_witness :
    ((digest [1, 2, 3] ++ "_a.pdf", [1, 2, 3]) ∈
      (download_attachments digest [[msgA, msgB]] ⟨∅, ∅⟩).1.written) ∧
    digest [1, 2, 3] ∉ (⟨∅, ∅⟩ : History).attachments :=
  ⟨by decide,
   (dedup_global_hash digest [[msgA, msgB]] ⟨∅, ∅⟩).2.1
     (digest [1, 2, 3] ++ "_a.pdf", [1, 2, 3]) (by decide)⟩

/-- Claim C6, counterexample: the claim says a provider error fetching a
single message aborts only that item and the run continues; in the code
there is no per-item handler: the error raised on the second message
propagates, the run ends, and the third message — which carries a fresh
attachment — is never examined, downloaded, or marked seen. -/
theorem provider_error_not_isolated_counterexample :
    (download_attachments digest [[msgA, msgFail, msgC]] ⟨∅, ∅⟩).2 = .raised ∧
    (download_attachments digest [[msgA, msgFail, msgC]]
        ⟨∅, ∅⟩).1.history.message_ids = {"m1"} ∧
    ("m3" ∉ (download_attachments digest [[msgA, msgFail, msgC]]
        ⟨∅, ∅⟩).1.history.message_ids) ∧
    (download_attachments digest [[msgA, msgFail, msgC]] ⟨∅, ∅⟩).1.written.map
        Prod.fst = [digest [1, 2, 3] ++ "_a.pdf"] := by
  refine ⟨by decide, by decide, by decide, by decide⟩

/-- Claim C6, amended: a provider error while fetching a message propagates
out of `download_attachments`, dropping all remaining messages of the run
(`main` then catches it, and the `finally` still saves the history recorded
so far); a missing credentials configuration makes `main` abort with no
provider interaction — its result is independent of the mailbox — before
the download step runs. -/
theorem provider_error_aborts_run (hash : List Nat → String)
    (m : GmailMessage) (rest : List GmailMessage) (st : DState)
    (hcap : ¬ st.msgs_examined ≥ 10) (hnew : m.id ∉ st.history.message_ids)
    (herr : m.fetch = .error ()) :
    (process_messages hash (m :: rest) st =
      ({ st with msgs_examined := st.msgs_examined + 1 }, .raised)) ∧
    (∀ (hfile : HistoryFileState) (pages pages' : List (List GmailMessage)),
      gmail_main hash false hfile pages = gmail_main hash false hfile pages' ∧
      gmail_main hash false hfile pages = ⟨.authFailed, none⟩) ∧
    (∀ (hfile : HistoryFileState) (pages : List (List GmailMessage)) (h0 : History),
      load_history hfile = .ok h0 →
      (download_attachments hash pages h0).2 = .raised →
      (gmail_main hash true hfile pages).outcome = .downloadFailed ∧
      (gmail_main hash true hfile pages).saved =
        some (download_attachments hash pages h0).1.history) := by
  refine ⟨process_messages_cons_err hash m rest st hcap hnew herr,
    fun hfile pages pages' => ⟨rfl, rfl⟩, ?_⟩
  intro hfile pages h0 hload hflow
  unfold gmail_main
  rw [hload]
  simp [hflow]

/-- Lock-step replay of the message loop: if a batch ran without raising,
re-running it from a state with the same examination count whose history
covers the first run's final `message_ids` skips every message, changing
nothing but the counter, and ends with the same flow. -/
theorem process_messages_second_run (hash : List Nat → String) :
    ∀ (msgs : List GmailMessage) (st st₂ : DState),
      (process_messages hash msgs st).2 ≠ .raised →
      st₂.msgs_examined = st.msgs_examined →
      (process_messages hash msgs st).1.history.message_ids ⊆
        st₂.history.message_ids →
      process_messages hash msgs st₂ =
        ({ st₂ with
            msgs_examined := (process_messages hash msgs st).1.msgs_examined },
          (process_messages hash msgs st).2) := by
  intro msgs
  induction msgs with
  | nil =>
    intro st st₂ hflow hcnt hsub
    simp only [process_messages]
    rw [← hcnt]
  | cons m rest ih =>
    intro st st₂ hflow hcnt hsub
    by_cases hcap : st.msgs_examined ≥ 10
    · have hcap₂ : st₂.msgs_examined ≥ 10 := by rw [hcnt]; exact hcap
      rw [process_messages_cons_cap hash m rest st hcap] at hflow hsub ⊢
      rw [process_messages_cons_cap hash m rest st₂ hcap₂]
      simp [← hcnt]
    · have hcap₂ : ¬ st₂.msgs_examined ≥ 10 := by rw [hcnt]; exact hcap
      by_cases hmem : m.id ∈ st.history.message_ids
      · have hR := process_messages_cons_skip hash m rest st hcap hmem
        have hmem₂ : m.id ∈ st₂.history.message_ids := by
          apply hsub
          rw [hR]
          exact process_messages_ids_mono hash rest
            { st with msgs_examined := st.msgs_examined + 1 } hmem
        rw [hR] at hflow hsub ⊢
        rw [process_messages_cons_skip hash m rest st₂ hcap₂ hmem₂]
        have hi := ih { st with msgs_examined := st.msgs_examined + 1 }
          { st₂ with msgs_examined := st₂.msgs_examined + 1 } hflow
          (by simp [hcnt]) hsub
        rw [hi]
      · cases hfetch : m.fetch with
        | error e =>
          cases e
          rw [process_messages_cons_err hash m rest st hcap hmem hfetch] at hflow
          exact absurd rfl hflow
        | ok full =>
          cases hpr : (process_parts hash
              (header_value full.headers "Subject" "(no subject)")
              (header_value full.headers "From" "(no sender)") full.parts
              { st with msgs_examined := st.msgs_examined + 1 }).2 with
          | true =>
            rw [process_messages_cons_ok_raised hash m rest st full hcap hmem
              hfetch hpr] at hflow
            exact absurd rfl hflow
          | false =>
            have hR := process_messages_cons_ok_done hash m rest st full hcap
              hmem hfetch hpr
            have h2cnt := (process_parts_frame hash
              (header_value full.headers "Subject" "(no subject)")
              (header_value full.headers "From" "(no sender)") full.parts
              { st with msgs_examined := st.msgs_examined + 1 }).2
            have hmem₂ : m.id ∈ st₂.history.message_ids := by
              apply hsub
              rw [hR]
              exact process_messages_ids_mono hash rest _
                (Finset.mem_insert_self m.id _)
            rw [hR] at hflow hsub ⊢
            rw [process_messages_cons_skip hash m rest st₂ hcap₂ hmem₂]
            have hi := ih _ { st₂ with msgs_examined := st₂.msgs_examined + 1 }
              hflow
              (by
                show st₂.msgs_examined + 1 = (process_parts hash
                  (header_value full.headers "Subject" "(no subject)")
                  (header_value full.headers "From" "(no sender)") full.parts
                  { st with msgs_examined := st.msgs_examined + 1 }).1.msgs_examined
                rw [h2cnt, hcnt])
              hsub
            rw [hi]

/-- Lock-step replay of the pagination loop. -/
theorem process_pages_second_run (hash : List Nat → String) :
    ∀ (pages : List (List GmailMessage)) (st st₂ : DState),
      (process_pages hash pages st).2 ≠ .raised →
      st₂.msgs_examined = st.msgs_examined →
      (process_pages hash pages st).1.history.message_ids ⊆
        st₂.history.message_ids →
      process_pages hash pages st₂ =
        ({ st₂ with
            msgs_examined := (process_pages hash pages st).1.msgs_examined },
          (process_pages hash pages st).2) := by
  intro pages
  induction pages with
  | nil =>
    intro st st₂ hflow hcnt hsub
    simp only [process_pages]
    rw [← hcnt]
  | cons page rest ih =>
    intro st st₂ hflow hcnt hsub
    rcases hR : process_messages hash page st with ⟨s1, f1⟩
    rw [process_pages_cons hash page rest st, hR] at hflow hsub ⊢
    cases f1 with
    | finished =>
      have hmsub : s1.history.message_ids ⊆ st₂.history.message_ids :=
        Finset.Subset.trans (process_pages_ids_mono hash rest s1) hsub
      have hm := process_messages_second_run hash page st st₂
        (by rw [hR]; simp) hcnt (by rw [hR]; exact hmsub)
      rw [hR] at hm
      rw [process_pages_cons hash page rest st₂, hm]
      show process_pages hash rest
        { st₂ with msgs_examined := s1.msgs_examined } = _
      have hi := ih s1 { st₂ with msgs_examined := s1.msgs_examined }
        hflow rfl hsub
      rw [hi]
    | returned =>
      have hm := process_messages_second_run hash page st st₂
        (by rw [hR]; simp) hcnt (by rw [hR]; exact hsub)
      rw [hR] at hm
      rw [process_pages_cons hash page rest st₂, hm]
    | raised => exact absurd rfl hflow

/-- Witness for C6 at a fresh state and a failing message. -/
theorem provider_error_aborts_run_witness :
    (¬ (init_state ⟨∅, ∅⟩).msgs_examined ≥ 10) ∧
    ("m2" ∉ (init_state ⟨∅, ∅⟩).history.message_ids) ∧
    process_messages digest [msgFail, msgC] (init_state ⟨∅, ∅⟩) =
      ({ init_state ⟨∅, ∅⟩ with
          msgs_examined := (init_state ⟨∅, ∅⟩).msgs_examined + 1 }, .raised) :=
  ⟨by decide, by decide,
   (provider_error_aborts_run digest msgFail [msgC] (init_state ⟨∅, ∅⟩)
      (by decide) (by decide) rfl).1⟩

/-- Claim C3: Idempotence of retrieval — after a run of `download_attachments`
that returned (did not raise), a second run over the unchanged mailbox with
the history the first run produced downloads nothing — no `new_files`
entries, no writes — leaves the history sets exactly equal to the first
run's output, and ends the same way the first run did. -/
theorem retrieval_idempotent (hash : List Nat → String)
    (pages : List (List GmailMessage)) (h0 : History)
    (hok : (download_attachments hash pages h0).2 ≠ .raised) :
    (download_attachments hash pages
        (download_attachments hash pages h0).1.history).1.new_files = [] ∧
    (download_attachments hash pages
        (download_attachments hash pages h0).1.history).1.written = [] ∧
    (download_attachments hash pages
        (download_attachments hash pages h0).1.history).1.history =
      (download_attachments hash pages h0).1.history ∧
    (download_attachments hash pages
        (download_attachments hash pages h0).1.history).2 =
      (download_attachments hash pages h0).2 := by
  have h := process_pages_second_run hash pages (init_state h0)
    (init_state (download_attachments hash pages h0).1.history) hok rfl
    (Finset.Subset.refl _)
  unfold download_attachments at h ⊢
  rw [h]
  exact ⟨rfl, rfl, rfl, rfl⟩

/-- Witness for C3: a two-message mailbox retrieved twice from an empty
history. -/
theorem retrieval_idempotent_witness :
    ((download_attachments digest [[msgA, msgB]] ⟨∅, ∅⟩).2 ≠ .raised) ∧
    (download_attachments digest [[msgA, msgB]]
        (download_attachments digest [[msgA, msgB]]
          ⟨∅, ∅⟩).1.history).1.new_files = [] ∧
    (download_attachments digest [[msgA, msgB]]
        (download_attachments digest [[msgA, msgB]]
          ⟨∅, ∅⟩).1.history).1.history =
      (download_attachments digest [[msgA, msgB]] ⟨∅, ∅⟩).1.history :=
  ⟨by decide,
   (retrieval_idempotent digest [[msgA, msgB]] ⟨∅, ∅⟩ (by decide)).1,
   (retrieval_idempotent digest [[msgA, msgB]] ⟨∅, ∅⟩ (by decide)).2.2.1⟩

end AIAgent
